import Mathlib

/-!
# Verification of `tough`'s validating stream adapters (`src/tough/src/io.rs`)

This file gives a shallow embedding of the two decorators in `io.rs`:

* `DigestAdapter` — wraps a reader, feeds every delivered byte into a running
  SHA-256 accumulator, and compares the finalized digest against an expected
  value at the call where the wrapped reader first reports end-of-stream.
* `MaxSizeAdapter` — wraps a reader and fails a read call once the cumulative
  number of delivered bytes exceeds a configured maximum.

Machine bytes are modelled as `Nat` (with `% 256` where packing matters) and
32-bit words as `Nat` with explicit `% 2^32`.  The underlying reader is
externalized: each call of an adapter's `read` is given the result the wrapped
reader returned for that call (`ReadResult`), and the adapter's mutable state
is passed explicitly.  SHA-256 itself (the `sha2` crate's `Sha256`, an external
dependency) is embedded as a full executable implementation of FIPS 180-4 so
that claims of the form "expected digest = SHA-256(C)" are statable directly;
the incremental `Digest` interface (`input`/`result`) is modelled extensionally
as byte accumulation whose finalization hashes the accumulated bytes.
-/

/-! ## SHA-256 (FIPS 180-4) over byte lists -/

/-- Right rotation of a 32-bit word held in a `Nat`. -/
def rotr (n x : Nat) : Nat := ((x >>> n) ||| (x <<< (32 - n))) % 4294967296

/-- SHA-256 Σ₀. -/
def bigSigma0 (x : Nat) : Nat := rotr 2 x ^^^ rotr 13 x ^^^ rotr 22 x

/-- SHA-256 Σ₁. -/
def bigSigma1 (x : Nat) : Nat := rotr 6 x ^^^ rotr 11 x ^^^ rotr 25 x

/-- SHA-256 σ₀. -/
def smallSigma0 (x : Nat) : Nat := rotr 7 x ^^^ rotr 18 x ^^^ (x >>> 3)

/-- SHA-256 σ₁. -/
def smallSigma1 (x : Nat) : Nat := rotr 17 x ^^^ rotr 19 x ^^^ (x >>> 10)

/-- SHA-256 Ch: `(x ∧ y) ⊕ (¬x ∧ z)` on 32-bit words. -/
def chFn (x y z : Nat) : Nat := (x &&& y) ^^^ ((x ^^^ 4294967295) &&& z)

/-- SHA-256 Maj. -/
def majFn (x y z : Nat) : Nat := (x &&& y) ^^^ (x &&& z) ^^^ (y &&& z)

/-- The 64 SHA-256 round constants, in decimal. -/
def sha256K : List Nat :=
  [1116352408, 1899447441, 3049323471, 3921009573, 961987163,
   1508970993, 2453635748, 2870763221, 3624381080, 310598401,
   607225278, 1426881987, 1925078388, 2162078206, 2614888103,
   3248222580, 3835390401, 4022224774, 264347078, 604807628,
   770255983, 1249150122, 1555081692, 1996064986, 2554220882,
   2821834349, 2952996808, 3210313671, 3336571891, 3584528711,
   113926993, 338241895, 666307205, 773529912, 1294757372,
   1396182291, 1695183700, 1986661051, 2177026350, 2456956037,
   2730485921, 2820302411, 3259730800, 3345764771, 3516065817,
   3600352804, 4094571909, 275423344, 430227734, 506948616,
   659060556, 883997877, 958139571, 1322822218, 1537002063,
   1747873779, 1955562222, 2024104815, 2227730452, 2361852424,
   2428436474, 2756734187, 3204031479, 3329325298]

/-- Pack four bytes (big-endian) into a 32-bit word. -/
def word4 (a b c d : Nat) : Nat :=
  ((a % 256) <<< 24) + ((b % 256) <<< 16) + ((c % 256) <<< 8) + d % 256

/-- Convert a byte list (length a multiple of 4) into big-endian 32-bit words. -/
def toWords : List Nat → List Nat
  | a :: b :: c :: d :: rest => word4 a b c d :: toWords rest
  | _ => []

/-- Split a word list into 16-word blocks (fueled; fuel bounds the block count). -/
def toBlocksFuel : Nat → List Nat → List (List Nat)
  | 0, _ => []
  | _ + 1, [] => []
  | n + 1, ws => ws.take 16 :: toBlocksFuel n (ws.drop 16)

/-- Split a word list into 16-word blocks. -/
def toBlocks (ws : List Nat) : List (List Nat) := toBlocksFuel ws.length ws

/-- 8 bytes of `n`, big-endian (the 64-bit message length field). -/
def lengthBytes (n : Nat) : List Nat :=
  [(n >>> 56) % 256, (n >>> 48) % 256, (n >>> 40) % 256, (n >>> 32) % 256,
   (n >>> 24) % 256, (n >>> 16) % 256, (n >>> 8) % 256, n % 256]

/-- SHA-256 padding: append `0x80`, zeros to 56 mod 64, then the bit length. -/
def padMessage (msg : List Nat) : List Nat :=
  msg ++ 128 :: List.replicate ((119 - msg.length % 64) % 64) 0
      ++ lengthBytes (8 * msg.length)

/-- Extend the message schedule, kept most-recent-first. -/
def extendSchedule : Nat → List Nat → List Nat
  | 0, w => w
  | n + 1, w =>
    extendSchedule n
      ((smallSigma1 (w.getD 1 0) + w.getD 6 0 + smallSigma0 (w.getD 14 0)
          + w.getD 15 0) % 4294967296 :: w)

/-- The full 64-word message schedule of a 16-word block, in order. -/
def schedule (block : List Nat) : List Nat :=
  (extendSchedule 48 block.reverse).reverse

/-- The eight 32-bit working variables of the SHA-256 compression function. -/
structure Hash8 where
  a : Nat
  b : Nat
  c : Nat
  d : Nat
  e : Nat
  f : Nat
  g : Nat
  hh : Nat
  deriving Repr, DecidableEq

/-- One SHA-256 compression round; `kw` pairs the round constant with the
scheduled word. -/
def compressStep (st : Hash8) (kw : Nat × Nat) : Hash8 :=
  let t1 := (st.hh + bigSigma1 st.e + chFn st.e st.f st.g + kw.1 + kw.2)
      % 4294967296
  let t2 := (bigSigma0 st.a + majFn st.a st.b st.c) % 4294967296
  { a := (t1 + t2) % 4294967296, b := st.a, c := st.b, d := st.c,
    e := (st.d + t1) % 4294967296, f := st.e, g := st.f, hh := st.g }

/-- Process one 16-word block: 64 rounds, then add to the chaining value. -/
def processBlock (st : Hash8) (block : List Nat) : Hash8 :=
  let fin := (sha256K.zip (schedule block)).foldl compressStep st
  { a := (st.a + fin.a) % 4294967296, b := (st.b + fin.b) % 4294967296,
    c := (st.c + fin.c) % 4294967296, d := (st.d + fin.d) % 4294967296,
    e := (st.e + fin.e) % 4294967296, f := (st.f + fin.f) % 4294967296,
    g := (st.g + fin.g) % 4294967296, hh := (st.hh + fin.hh) % 4294967296 }

/-- The SHA-256 initial hash value. -/
def initHash : Hash8 :=
  ⟨1779033703, 3144134277, 1013904242, 2773480762,
   1359893119, 2600822924, 528734635, 1541459225⟩

/-- A 32-bit word as four big-endian bytes. -/
def wordBytes (w : Nat) : List Nat :=
  [(w >>> 24) % 256, (w >>> 16) % 256, (w >>> 8) % 256, w % 256]

/-- The 32 digest bytes of a final hash state. -/
def hashBytes (st : Hash8) : List Nat :=
  wordBytes st.a ++ wordBytes st.b ++ wordBytes st.c ++ wordBytes st.d ++
  wordBytes st.e ++ wordBytes st.f ++ wordBytes st.g ++ wordBytes st.hh

/-- SHA-256 of a byte list, as its 32 digest bytes. -/
def sha256 (msg : List Nat) : List Nat :=
  hashBytes ((toBlocks (toWords (padMessage msg))).foldl processBlock initHash)

/-! ## Hex encoding (the `hex` crate's `encode`, used in the mismatch error) -/

/-- Lower-case hex digit of a value below 16. -/
def hexChar (n : Nat) : Char := if n < 10 then Char.ofNat (48 + n) else Char.ofNat (87 + n)

/-- Lower-case hex string of a byte list (`hex::encode`). -/
def hexEncode (bs : List Nat) : String :=
  String.mk (bs.foldr (fun b acc => hexChar (b % 256 / 16) :: hexChar (b % 16) :: acc) [])

/-! ## The reader model

A `Read::read` call on the wrapped source either returns `Ok(n)` having written
`n` bytes into the buffer — modelled as the list of bytes delivered, with the
empty list meaning `Ok(0)`, i.e. end-of-stream — or returns an I/O error,
modelled opaquely by a numeric code. -/

/-- The result of one `read` call on the wrapped source. -/
inductive ReadResult where
  | bytes (bs : List Nat)
  | ioErr (code : Nat)
  deriving Repr, DecidableEq

/-- The error taxonomy surfaced by the adapters.  The `hashMismatch` and
`maxSizeExceeded` payloads are exactly the fields built at the failure sites in
`io.rs` (`calculated`/`expected` as `hex::encode` strings, `size` as the
configured limit); the `ioError` case is the opaque passthrough of an
underlying I/O error (`crate::error` itself is not under `src/`, so the
carriers are modelled from these call sites and the spec's error taxonomy). -/
inductive AdapterError where
  | hashMismatch (calculated expected : String)
  | maxSizeExceeded (size : Nat)
  | ioError (code : Nat)
  deriving Repr, DecidableEq

/-! ## DigestAdapter -/

/-- The incremental digest interface (`sha2`'s `Digest` trait): a state type
with `input` (absorb bytes) and `result` (finalize). -/
structure DigestImpl (σ : Type) where
  init : σ
  input : σ → List Nat → σ
  result : σ → List Nat

/-- `sha2::Sha256` through the `Digest` interface, modelled extensionally: the
accumulator is the list of bytes absorbed so far and finalization hashes it. -/
def sha256Impl : DigestImpl (List Nat) :=
  { init := [], input := fun s bs => s ++ bs, result := sha256 }

/-- `DigestAdapter`'s own state: the expected digest bytes (`hash`) and the
optional running accumulator (`digest`), `none` once it has been taken and
finalized.  The wrapped reader is externalized (see `ReadResult`). -/
structure DigestAdapter (σ : Type) where
  hash : List Nat
  digest : Option σ
  deriving Repr, DecidableEq

/-- `DigestAdapter::sha256`: wrap a reader with an expected digest; the
accumulator starts fresh and no validation of `hash` is performed. -/
def DigestAdapter.mkSha256 (hash : List Nat) : DigestAdapter (List Nat) :=
  { hash := hash, digest := some sha256Impl.init }

/-- The outcome of one `DigestAdapter::read` call: `none` models the
`assert!` failing (a panic); otherwise the call returns either the delivered
bytes or an error, along with the adapter state after the call. -/
def DigestAdapter.read (D : DigestImpl σ) (a : DigestAdapter σ)
    (r : ReadResult) : Option (Except AdapterError (List Nat) × DigestAdapter σ) :=
  match a.digest with
  | none => none
  | some d =>
    match r with
    | .ioErr e => some (.error (.ioError e), a)
    | .bytes bs =>
      if bs.length = 0 then
        let res := D.result d
        let a2 : DigestAdapter σ := { a with digest := none }
        if res ≠ a.hash then
          some (.error (.hashMismatch (hexEncode res) (hexEncode a.hash)), a2)
        else
          some (.ok [], a2)
      else
        some (.ok bs, { a with digest := some (D.input d bs) })

/-! ## MaxSizeAdapter -/

/-- `MaxSizeAdapter`'s own state: the configured maximum (`size`) and the
cumulative byte counter. -/
structure MaxSizeAdapter where
  size : Nat
  counter : Nat
  deriving Repr, DecidableEq

/-- `MaxSizeAdapter::new`. -/
def MaxSizeAdapter.new (size : Nat) : MaxSizeAdapter :=
  { size := size, counter := 0 }

/-- One `MaxSizeAdapter::read` call: propagate an I/O error untouched,
otherwise add the delivered count to the counter and fail iff the counter now
exceeds the maximum. -/
def MaxSizeAdapter.read (a : MaxSizeAdapter) (r : ReadResult) :
    Except AdapterError (List Nat) × MaxSizeAdapter :=
  match r with
  | .ioErr e => (.error (.ioError e), a)
  | .bytes bs =>
    let a2 : MaxSizeAdapter := { a with counter := a.counter + bs.length }
    if a2.counter > a.size then
      (.error (.maxSizeExceeded a.size), a2)
    else
      (.ok bs, a2)

/-! ## Read-through drivers

A caller (like `read_to_end`) issues read calls in order and stops at the
first failing call.  The driver is given the planned sequence of underlying
read results and reports the concatenation of all bytes delivered to the
caller, together with how the run ended. -/

/-- How a read-through ends: every planned call succeeded, some call returned
an error, or some call panicked; each case carries the bytes delivered to the
caller by the successful calls before that point. -/
inductive RunResult where
  | success (delivered : List Nat)
  | failure (delivered : List Nat) (e : AdapterError)
  | panicked (delivered : List Nat)
  deriving Repr, DecidableEq

/-- Drive a `DigestAdapter` through a sequence of underlying read results,
stopping at the first error or panic. -/
def runDigest (D : DigestImpl σ) (a : DigestAdapter σ) :
    List ReadResult → RunResult
  | [] => .success []
  | r :: rs =>
    match DigestAdapter.read D a r with
    | none => .panicked []
    | some (.error e, _) => .failure [] e
    | some (.ok bs, a2) =>
      match runDigest D a2 rs with
      | .success d => .success (bs ++ d)
      | .failure d e => .failure (bs ++ d) e
      | .panicked d => .panicked (bs ++ d)

/-- Drive a `MaxSizeAdapter` through a sequence of underlying read results,
stopping at the first error. -/
def runMax (a : MaxSizeAdapter) : List ReadResult → RunResult
  | [] => .success []
  | r :: rs =>
    match MaxSizeAdapter.read a r with
    | (.error e, _) => .failure [] e
    | (.ok bs, a2) =>
      match runMax a2 rs with
      | .success d => .success (bs ++ d)
      | .failure d e => .failure (bs ++ d) e
      | .panicked d => .panicked (bs ++ d)

/-! ## Single-call behavior lemmas -/

/-- With the accumulator gone, any read call hits the `assert!` and panics. -/
theorem DigestAdapter.read_of_digest_none {σ : Type} (D : DigestImpl σ)
    (a : DigestAdapter σ) (h : a.digest = none) (r : ReadResult) :
    DigestAdapter.read D a r = none := by
  simp [DigestAdapter.read, h]

/-- While streaming, an underlying I/O error is propagated unchanged and the
adapter state (hash accumulator included) is untouched. -/
theorem DigestAdapter.read_ioErr {σ : Type} (D : DigestImpl σ)
    (a : DigestAdapter σ) (d : σ) (e : Nat) (h : a.digest = some d) :
    DigestAdapter.read D a (.ioErr e) = some (.error (.ioError e), a) := by
  simp [DigestAdapter.read, h]

/-- While streaming, a nonzero chunk is absorbed into the accumulator and
returned to the caller unmodified. -/
theorem DigestAdapter.read_chunk {σ : Type} (D : DigestImpl σ)
    (a : DigestAdapter σ) (d : σ) (bs : List Nat) (h : a.digest = some d)
    (hbs : bs ≠ []) :
    DigestAdapter.read D a (.bytes bs)
      = some (.ok bs, { a with digest := some (D.input d bs) }) := by
  simp [DigestAdapter.read, h, hbs]

/-- At end-of-stream the accumulator is taken (set to `none`) and finalized;
the call reports a clean EOF on a digest match and a hash-mismatch error
otherwise. -/
theorem DigestAdapter.read_eof {σ : Type} (D : DigestImpl σ)
    (a : DigestAdapter σ) (d : σ) (h : a.digest = some d) :
    DigestAdapter.read D a (.bytes [])
      = some ((if D.result d ≠ a.hash then
            .error (.hashMismatch (hexEncode (D.result d)) (hexEncode a.hash))
          else .ok []), { a with digest := none }) := by
  by_cases hEq : D.result d = a.hash
  · simp [DigestAdapter.read, h, hEq]
  · simp [DigestAdapter.read, h, hEq]

/-- A size-bounded read propagates an underlying I/O error unchanged, with the
counter untouched. -/
theorem MaxSizeAdapter.read_err_passthrough (a : MaxSizeAdapter) (e : Nat) :
    MaxSizeAdapter.read a (.ioErr e) = (.error (.ioError e), a) := rfl

/-- A size-bounded read that keeps the counter within the maximum delivers the
chunk unmodified. -/
theorem MaxSizeAdapter.read_bytes_ok (a : MaxSizeAdapter) (bs : List Nat)
    (h : a.counter + bs.length ≤ a.size) :
    MaxSizeAdapter.read a (.bytes bs)
      = (.ok bs, { a with counter := a.counter + bs.length }) := by
  simp only [MaxSizeAdapter.read]
  rw [if_neg (by omega)]

/-- A size-bounded read that pushes the counter past the maximum fails with
the configured limit, the counter having been bumped by the discarded chunk. -/
theorem MaxSizeAdapter.read_bytes_over (a : MaxSizeAdapter) (bs : List Nat)
    (h : a.size < a.counter + bs.length) :
    MaxSizeAdapter.read a (.bytes bs)
      = (.error (.maxSizeExceeded a.size), { a with counter := a.counter + bs.length }) := by
  simp only [MaxSizeAdapter.read]
  rw [if_pos (by omega)]

/-- Every SHA-256 digest is exactly 32 bytes. -/
theorem sha256_length (msg : List Nat) : (sha256 msg).length = 32 := by
  simp [sha256, hashBytes, wordBytes]

/-! ## Read-through behavior of the digest adapter -/

/-- Unfolding lemma: a run whose first call delivers bytes continues with the
updated state, prepending the delivered bytes. -/
theorem runDigest_cons_ok {σ : Type} (D : DigestImpl σ) (a a2 : DigestAdapter σ)
    (bs : List Nat) (r : ReadResult) (rs : List ReadResult)
    (h : DigestAdapter.read D a r = some (.ok bs, a2)) :
    runDigest D a (r :: rs) =
      match runDigest D a2 rs with
      | .success d => .success (bs ++ d)
      | .failure d e => .failure (bs ++ d) e
      | .panicked d => .panicked (bs ++ d) := by
  rw [runDigest, h]

/-- `DigestAdapter.read_chunk` with the state spelled out field by field. -/
theorem DigestAdapter.read_chunk_state {σ : Type} (D : DigestImpl σ)
    (hash : List Nat) (d : σ) (bs : List Nat) (hbs : bs ≠ []) :
    DigestAdapter.read D { hash := hash, digest := some d } (.bytes bs)
      = some (.ok bs, { hash := hash, digest := some (D.input d bs) }) := by
  simp [DigestAdapter.read, hbs]

/-- `DigestAdapter.read_eof` with the state spelled out field by field. -/
theorem DigestAdapter.read_eof_state {σ : Type} (D : DigestImpl σ)
    (hash : List Nat) (d : σ) :
    DigestAdapter.read D { hash := hash, digest := some d } (.bytes [])
      = some ((if D.result d ≠ hash then
            .error (.hashMismatch (hexEncode (D.result d)) (hexEncode hash))
          else .ok []), { hash := hash, digest := none }) := by
  by_cases hEq : D.result d = hash
  · simp [DigestAdapter.read, hEq]
  · simp [DigestAdapter.read, hEq]

/-- Driving a streaming digest adapter (accumulated bytes `s`) through nonzero
chunks followed by end-of-stream delivers exactly the chunks' content, and
succeeds or fails according to whether SHA-256 of all absorbed bytes matches
the expectation. -/
theorem runDigest_sha_spec (hash s : List Nat) (chunks : List (List Nat))
    (hne : ∀ c ∈ chunks, c ≠ []) :
    runDigest sha256Impl { hash := hash, digest := some s }
      (chunks.map ReadResult.bytes ++ [ReadResult.bytes []]) =
      if sha256 (s ++ chunks.flatten) ≠ hash then
        .failure chunks.flatten
          (.hashMismatch (hexEncode (sha256 (s ++ chunks.flatten))) (hexEncode hash))
      else .success chunks.flatten := by
  induction chunks generalizing s with
  | nil =>
    simp only [List.map_nil, List.nil_append, List.flatten_nil, List.append_nil]
    rw [runDigest, DigestAdapter.read_eof_state sha256Impl hash s]
    by_cases hEq : sha256 s = hash
    · simp [sha256Impl, hEq, runDigest]
    · simp [sha256Impl, hEq, runDigest]
  | cons c rest ih =>
    have hc : c ≠ [] := hne c (by simp)
    have hrest : ∀ x ∈ rest, x ≠ [] := fun x hx => hne x (by simp [hx])
    simp only [List.map_cons, List.cons_append]
    rw [runDigest_cons_ok sha256Impl _ { hash := hash, digest := some (s ++ c) } c _ _
      (DigestAdapter.read_chunk_state sha256Impl hash s c hc)]
    rw [ih (s ++ c) hrest]
    by_cases hEq : sha256 (s ++ (c ++ rest.flatten)) = hash
    · rw [if_neg (by simp [List.append_assoc, hEq]),
        if_neg (by simp [List.flatten_cons, hEq])]
      simp [List.flatten_cons]
    · rw [if_pos (by simp [List.append_assoc, hEq]),
        if_pos (by simp [List.flatten_cons, hEq])]
      simp [List.flatten_cons, List.append_assoc]

/-! ## Read-through behavior of the size adapter -/

/-- Unfolding lemma: a size-bounded run whose first call delivers bytes
continues with the updated state, prepending the delivered bytes. -/
theorem runMax_cons_ok (a a2 : MaxSizeAdapter) (bs : List Nat) (r : ReadResult)
    (rs : List ReadResult) (h : MaxSizeAdapter.read a r = (.ok bs, a2)) :
    runMax a (r :: rs) =
      match runMax a2 rs with
      | .success d => .success (bs ++ d)
      | .failure d e => .failure (bs ++ d) e
      | .panicked d => .panicked (bs ++ d) := by
  rw [runMax, h]

/-- A size-bounded read-through whose total stays within the remaining budget
succeeds and delivers every byte unmodified. -/
theorem runMax_within (a : MaxSizeAdapter) (chunks : List (List Nat))
    (h : a.counter + chunks.flatten.length ≤ a.size) :
    runMax a (chunks.map ReadResult.bytes) = .success chunks.flatten := by
  induction chunks generalizing a with
  | nil => rfl
  | cons c rest ih =>
    have hlen : (c :: rest).flatten.length = c.length + rest.flatten.length := by
      simp [List.flatten_cons]
    rw [List.map_cons,
      runMax_cons_ok a { a with counter := a.counter + c.length } c _ _
        (MaxSizeAdapter.read_bytes_ok a c (by omega)),
      ih { a with counter := a.counter + c.length }
        (by show a.counter + c.length + rest.flatten.length ≤ a.size; omega)]
    simp [List.flatten_cons]

/-- A size-bounded read-through overflows exactly at the first call whose
chunk pushes the cumulative count past the remaining budget: the earlier
chunks are delivered, the overflowing chunk is discarded, and the call fails
with the configured limit. -/
theorem runMax_overflow (a : MaxSizeAdapter) (pre : List (List Nat))
    (c : List Nat) (post : List (List Nat))
    (hpre : a.counter + pre.flatten.length ≤ a.size)
    (hc : a.size < a.counter + pre.flatten.length + c.length) :
    runMax a ((pre ++ c :: post).map ReadResult.bytes)
      = .failure pre.flatten (.maxSizeExceeded a.size) := by
  induction pre generalizing a with
  | nil =>
    have h0 : (([] : List (List Nat)).flatten.length) = 0 := rfl
    rw [List.nil_append, List.map_cons, runMax,
      MaxSizeAdapter.read_bytes_over a c (by omega)]
    rfl
  | cons p rest ih =>
    have hlen : (p :: rest).flatten.length = p.length + rest.flatten.length := by
      simp [List.flatten_cons]
    rw [List.cons_append, List.map_cons,
      runMax_cons_ok a { a with counter := a.counter + p.length } p _ _
        (MaxSizeAdapter.read_bytes_ok a p (by omega)),
      ih { a with counter := a.counter + p.length }
        (by show a.counter + p.length + rest.flatten.length ≤ a.size; omega)
        (by show a.size < a.counter + p.length + rest.flatten.length + c.length; omega)]
    simp [List.flatten_cons]

/-! ## The claims -/

/-- C1: for every content C and expected digest equal to SHA-256(C), reading a
digest-verifying reader wrapping C until end-of-stream succeeds — the
end-of-stream call returns zero bytes with no error — and the concatenation of
bytes delivered across all calls is exactly C, unmodified. -/
theorem claim_C1_digest_match_roundtrip (chunks : List (List Nat)) (C : List Nat)
    (hne : ∀ c ∈ chunks, c ≠ []) (hC : chunks.flatten = C) :
    runDigest sha256Impl (DigestAdapter.mkSha256 (sha256 C))
      (chunks.map ReadResult.bytes ++ [ReadResult.bytes []]) = .success C := by
  subst hC
  have hs := runDigest_sha_spec (sha256 chunks.flatten) [] chunks hne
  rw [List.nil_append, if_neg (by simp)] at hs
  exact hs

/-- Witness for C1 at content "hello" split into two chunks. -/
theorem claim_C1_witness :
    (∀ c ∈ [[104, 101], [108, 108, 111]], c ≠ ([] : List Nat)) ∧
    runDigest sha256Impl (DigestAdapter.mkSha256 (sha256 [104, 101, 108, 108, 111]))
      ([[104, 101], [108, 108, 111]].map ReadResult.bytes ++ [ReadResult.bytes []])
      = .success [104, 101, 108, 108, 111] :=
  ⟨by decide,
   claim_C1_digest_match_roundtrip [[104, 101], [108, 108, 111]] _ (by decide) rfl⟩

/-- C2: for every content C and expected digest D2 ≠ SHA-256(C), the reader
delivers all of C through successful calls and the call at which the wrapped
source first reports end-of-stream fails with a hash-mismatch error carrying
the calculated and the expected digest; never earlier. -/
theorem claim_C2_digest_mismatch_at_eof (chunks : List (List Nat))
    (C D2 : List Nat) (hne : ∀ c ∈ chunks, c ≠ []) (hC : chunks.flatten = C)
    (hD : D2 ≠ sha256 C) :
    runDigest sha256Impl (DigestAdapter.mkSha256 D2)
      (chunks.map ReadResult.bytes ++ [ReadResult.bytes []])
      = .failure C (.hashMismatch (hexEncode (sha256 C)) (hexEncode D2)) := by
  subst hC
  have hs := runDigest_sha_spec D2 [] chunks hne
  rw [List.nil_append, if_pos (Ne.symm hD)] at hs
  exact hs

/-- Witness for C2 at content [1,2,3] and an all-zero 32-byte expectation. -/
theorem claim_C2_witness :
    (∀ c ∈ [[1, 2], [3]], c ≠ ([] : List Nat)) ∧
    List.replicate 32 0 ≠ sha256 [1, 2, 3] ∧
    runDigest sha256Impl (DigestAdapter.mkSha256 (List.replicate 32 0))
      ([[1, 2], [3]].map ReadResult.bytes ++ [ReadResult.bytes []])
      = .failure [1, 2, 3]
          (.hashMismatch (hexEncode (sha256 [1, 2, 3]))
            (hexEncode (List.replicate 32 0))) :=
  ⟨by decide, by decide,
   claim_C2_digest_mismatch_at_eof [[1, 2], [3]] _ _ (by decide) rfl (by decide)⟩

/-- C3: a size-bounding reader with limit L delivers any content of total
length ≤ L unmodified and succeeds; content of total length > L fails with a
size-exceeded error carrying the limit exactly at the call where the
cumulative count first exceeds L, and the overflowing call's bytes are not
delivered. -/
theorem claim_C3_maxsize_bound (L : Nat) (chunks : List (List Nat)) :
    (chunks.flatten.length ≤ L →
      runMax (MaxSizeAdapter.new L) (chunks.map ReadResult.bytes)
        = .success chunks.flatten) ∧
    (∀ pre c post, chunks = pre ++ c :: post →
      pre.flatten.length ≤ L → L < pre.flatten.length + c.length →
      runMax (MaxSizeAdapter.new L) (chunks.map ReadResult.bytes)
        = .failure pre.flatten (.maxSizeExceeded L)) := by
  constructor
  · intro h
    exact runMax_within _ chunks
      (show 0 + chunks.flatten.length ≤ L by omega)
  · intro pre c post hsplit h1 h2
    subst hsplit
    exact runMax_overflow _ pre c post
      (show 0 + pre.flatten.length ≤ L by omega)
      (show L < 0 + pre.flatten.length + c.length by omega)

/-- Witness for C3: limit 5 accepts [1,2]+[3,4,5]; limit 4 rejects it at the
second call, delivering only [1,2]. -/
theorem claim_C3_witness :
    runMax (MaxSizeAdapter.new 5) ([[1, 2], [3, 4, 5]].map ReadResult.bytes)
      = .success [1, 2, 3, 4, 5] ∧
    runMax (MaxSizeAdapter.new 4) ([[1, 2], [3, 4, 5]].map ReadResult.bytes)
      = .failure [1, 2] (.maxSizeExceeded 4) :=
  ⟨(claim_C3_maxsize_bound 5 [[1, 2], [3, 4, 5]]).1 (by decide),
   (claim_C3_maxsize_bound 4 [[1, 2], [3, 4, 5]]).2 [[1, 2]] [3, 4, 5] []
     rfl (by decide) (by decide)⟩

/-- C4: while streaming, an underlying I/O error is returned to the caller
unchanged and the running hash accumulator is not modified by the call —
no bytes are fed into it and it is not finalized (the whole adapter state is
untouched). -/
theorem claim_C4_digest_io_error_transparent {σ : Type} (D : DigestImpl σ)
    (a : DigestAdapter σ) (d : σ) (e : Nat) (h : a.digest = some d) :
    DigestAdapter.read D a (.ioErr e) = some (.error (.ioError e), a) :=
  DigestAdapter.read_ioErr D a d e h

/-- Witness for C4 at a concrete streaming state and error code 7. -/
theorem claim_C4_witness :
    ({ hash := [0], digest := some [] } : DigestAdapter (List Nat)).digest
        = some [] ∧
    DigestAdapter.read sha256Impl { hash := [0], digest := some [] } (.ioErr 7)
      = some (.error (.ioError 7), { hash := [0], digest := some [] }) :=
  ⟨rfl, claim_C4_digest_io_error_transparent sha256Impl _ [] 7 rfl⟩

/-- C5 counterexample: a propagated I/O error is NOT a latched terminal state.
After a digest-verifying read call propagates an underlying I/O error, the
adapter state is unchanged and the very next call succeeds and delivers bytes
as if still streaming — contradicting "after a propagated I/O error no later
call may succeed". -/
theorem claim_C5_counterexample :
    DigestAdapter.read sha256Impl { hash := [0], digest := some [] } (.ioErr 7)
      = some (.error (.ioError 7), { hash := [0], digest := some [] }) ∧
    DigestAdapter.read sha256Impl { hash := [0], digest := some [] } (.bytes [5])
      = some (.ok [5], { hash := [0], digest := some [5] }) :=
  ⟨rfl, rfl⟩

/-- C5 amended: the digest-terminal outcomes latch — once the accumulator is
`none` every later call panics, and the end-of-stream call (match or mismatch)
always leaves it `none`; size overflow latches — once the counter exceeds the
maximum every later call fails and the state stays overflowed; but a
propagated I/O error does not latch: both adapters return it with their state
unchanged, so later calls behave as if still streaming. -/
theorem claim_C5_amended_terminal_latching :
    (∀ (D : DigestImpl (List Nat)) (a : DigestAdapter (List Nat))
        (r : ReadResult), a.digest = none → DigestAdapter.read D a r = none) ∧
    (∀ (D : DigestImpl (List Nat)) (a : DigestAdapter (List Nat))
        (d : List Nat), a.digest = some d →
      ∃ res, DigestAdapter.read D a (.bytes [])
          = some (res, { a with digest := none })) ∧
    (∀ (a : MaxSizeAdapter) (r : ReadResult), a.size < a.counter →
      (∃ e2, (MaxSizeAdapter.read a r).1 = .error e2) ∧
      (MaxSizeAdapter.read a r).2.size < (MaxSizeAdapter.read a r).2.counter) ∧
    (∀ (D : DigestImpl (List Nat)) (a : DigestAdapter (List Nat))
        (d : List Nat) (e : Nat), a.digest = some d →
      DigestAdapter.read D a (.ioErr e) = some (.error (.ioError e), a)) ∧
    (∀ (a : MaxSizeAdapter) (e : Nat),
      MaxSizeAdapter.read a (.ioErr e) = (.error (.ioError e), a)) := by
  refine ⟨fun D a r h => DigestAdapter.read_of_digest_none D a h r,
    fun D a d h => ⟨_, DigestAdapter.read_eof D a d h⟩,
    fun a r h => ?_,
    fun D a d e h => DigestAdapter.read_ioErr D a d e h,
    fun a e => MaxSizeAdapter.read_err_passthrough a e⟩
  cases r with
  | ioErr e => exact ⟨⟨.ioError e, rfl⟩, h⟩
  | bytes bs =>
    rw [MaxSizeAdapter.read_bytes_over a bs (by omega)]
    exact ⟨⟨.maxSizeExceeded a.size, rfl⟩, by show a.size < a.counter + bs.length; omega⟩

/-- Witness for the amended C5 at concrete states. -/
theorem claim_C5_amended_witness :
    DigestAdapter.read sha256Impl { hash := [0], digest := none } (.bytes [1])
        = none ∧
    (∃ res, DigestAdapter.read sha256Impl { hash := [0], digest := some [2] }
        (.bytes []) = some (res, { hash := [0], digest := none })) ∧
    MaxSizeAdapter.read { size := 0, counter := 1 } (.ioErr 3)
      = (.error (.ioError 3), { size := 0, counter := 1 }) :=
  ⟨claim_C5_amended_terminal_latching.1 sha256Impl _ _ rfl,
   claim_C5_amended_terminal_latching.2.1 sha256Impl _ [2] rfl,
   claim_C5_amended_terminal_latching.2.2.2.2 _ 3⟩

/-- C6: a size-bounded call whose cumulative total becomes exactly the maximum
is accepted; a zero-byte (end-of-stream) call at the exact limit passes
through with the counter unchanged; and with a maximum of zero the first call
that yields any bytes fails with a size-exceeded error. -/
theorem claim_C6_maxsize_edges :
    (∀ (a : MaxSizeAdapter) (bs : List Nat), a.counter + bs.length = a.size →
      MaxSizeAdapter.read a (.bytes bs) = (.ok bs, { a with counter := a.size })) ∧
    (∀ a : MaxSizeAdapter, a.counter = a.size →
      MaxSizeAdapter.read a (.bytes []) = (.ok [], a)) ∧
    (∀ bs : List Nat, bs ≠ [] →
      MaxSizeAdapter.read (MaxSizeAdapter.new 0) (.bytes bs)
        = (.error (.maxSizeExceeded 0), { size := 0, counter := bs.length })) := by
  refine ⟨fun a bs h => ?_, fun a h => ?_, fun bs h => ?_⟩
  · rw [MaxSizeAdapter.read_bytes_ok a bs (by omega), h]
  · have := MaxSizeAdapter.read_bytes_ok a [] (by simp [h])
    simpa using this
  · have hpos : 0 < bs.length := List.length_pos.mpr h
    have := MaxSizeAdapter.read_bytes_over (MaxSizeAdapter.new 0) bs
      (show (MaxSizeAdapter.new 0).size < (MaxSizeAdapter.new 0).counter + bs.length by
        show 0 < 0 + bs.length; omega)
    simpa [MaxSizeAdapter.new] using this

/-- Witness for C6 at concrete states. -/
theorem claim_C6_witness :
    MaxSizeAdapter.read { size := 5, counter := 3 } (.bytes [1, 2])
      = (.ok [1, 2], { size := 5, counter := 5 }) ∧
    MaxSizeAdapter.read { size := 5, counter := 5 } (.bytes [])
      = (.ok [], { size := 5, counter := 5 }) ∧
    MaxSizeAdapter.read (MaxSizeAdapter.new 0) (.bytes [9])
      = (.error (.maxSizeExceeded 0), { size := 0, counter := 1 }) :=
  ⟨claim_C6_maxsize_edges.1 { size := 5, counter := 3 } [1, 2] rfl,
   claim_C6_maxsize_edges.2.1 { size := 5, counter := 5 } rfl,
   claim_C6_maxsize_edges.2.2 [9] (by decide)⟩

/-- C7: a wrapped source that reports end-of-stream on the first read: the
digest-verifying reader's first call succeeds with zero bytes exactly when the
expectation equals SHA-256 of the empty input, and fails with a hash-mismatch
error otherwise; a size-bounding reader over the same empty source succeeds
for every limit. -/
theorem claim_C7_empty_source (Dexp : List Nat) (L : Nat) :
    DigestAdapter.read sha256Impl (DigestAdapter.mkSha256 Dexp) (.bytes [])
      = some ((if Dexp = sha256 [] then .ok []
          else .error (.hashMismatch (hexEncode (sha256 [])) (hexEncode Dexp))),
        { hash := Dexp, digest := none }) ∧
    runMax (MaxSizeAdapter.new L) [ReadResult.bytes []] = .success [] := by
  constructor
  · by_cases hEq : Dexp = sha256 []
    · simp [DigestAdapter.mkSha256, DigestAdapter.read, sha256Impl, hEq]
    · simp [DigestAdapter.mkSha256, DigestAdapter.read, sha256Impl, hEq,
        Ne.symm hEq]
  · have := runMax_within (MaxSizeAdapter.new L) [[]]
      (show 0 + ([[]] : List (List Nat)).flatten.length ≤ L by simp)
    simpa using this

/-- C8: construction with an expected digest of any length never fails and
stores the expectation verbatim (no length validation); and when the
expectation is not 32 bytes long, every read-through reaching end-of-stream
without an I/O error fails with a hash-mismatch error, because a finalized
SHA-256 digest is always exactly 32 bytes. -/
theorem claim_C8_wrong_length_expectation (h : List Nat) :
    ((DigestAdapter.mkSha256 h).hash = h ∧
      (DigestAdapter.mkSha256 h).digest = some []) ∧
    (h.length ≠ 32 → ∀ chunks : List (List Nat), (∀ c ∈ chunks, c ≠ []) →
      runDigest sha256Impl (DigestAdapter.mkSha256 h)
        (chunks.map ReadResult.bytes ++ [ReadResult.bytes []])
        = .failure chunks.flatten
            (.hashMismatch (hexEncode (sha256 chunks.flatten)) (hexEncode h))) := by
  refine ⟨⟨rfl, rfl⟩, fun hlen chunks hne => ?_⟩
  have hD : sha256 chunks.flatten ≠ h := fun hEq =>
    hlen (hEq ▸ sha256_length chunks.flatten)
  have hs := runDigest_sha_spec h [] chunks hne
  rw [List.nil_append, if_pos hD] at hs
  exact hs

/-- Witness for C8: a zero-length expectation mismatches even empty content. -/
theorem claim_C8_witness :
    ([] : List Nat).length ≠ 32 ∧
    runDigest sha256Impl (DigestAdapter.mkSha256 [])
      (([] : List (List Nat)).map ReadResult.bytes ++ [ReadResult.bytes []])
      = .failure ([] : List (List Nat)).flatten
          (.hashMismatch (hexEncode (sha256 ([] : List (List Nat)).flatten))
            (hexEncode [])) :=
  ⟨by decide,
   (claim_C8_wrong_length_expectation []).2 (by decide) [] (by decide)⟩

/-- C9: the end-of-stream call (match or mismatch alike) takes and finalizes
the accumulator exactly once, leaving it `none`; any read call made on an
adapter whose accumulator is gone hits the `assert!` and panics (modelled as
`none`) rather than returning a typed error or a recoverable result. -/
theorem claim_C9_read_after_terminal_panics :
    (∀ (D : DigestImpl (List Nat)) (a : DigestAdapter (List Nat))
        (d : List Nat), a.digest = some d →
      ∃ res, DigestAdapter.read D a (.bytes [])
          = some (res, { a with digest := none })) ∧
    (∀ (D : DigestImpl (List Nat)) (a : DigestAdapter (List Nat))
        (r : ReadResult), a.digest = none → DigestAdapter.read D a r = none) :=
  ⟨fun D a d h => ⟨_, DigestAdapter.read_eof D a d h⟩,
   fun D a r h => DigestAdapter.read_of_digest_none D a h r⟩

/-- Witness for C9 at concrete terminal and non-terminal states. -/
theorem claim_C9_witness :
    (∃ res, DigestAdapter.read sha256Impl { hash := [0], digest := some [] }
        (.bytes []) = some (res, { hash := [0], digest := none })) ∧
    DigestAdapter.read sha256Impl { hash := [0], digest := none } (.bytes [1])
      = none :=
  ⟨claim_C9_read_after_terminal_panics.1 sha256Impl _ [] rfl,
   claim_C9_read_after_terminal_panics.2 sha256Impl _ _ rfl⟩

/-- C10: when the wrapped source returns an I/O error from a size-bounding
read call, the error is propagated before any counting: the state (counter
included) is unchanged, so any subsequent call is processed exactly as if the
failed call had never occurred. -/
theorem claim_C10_maxsize_io_error_transparent (a : MaxSizeAdapter) (e : Nat) :
    MaxSizeAdapter.read a (.ioErr e) = (.error (.ioError e), a) ∧
    ∀ r, MaxSizeAdapter.read (MaxSizeAdapter.read a (.ioErr e)).2 r
        = MaxSizeAdapter.read a r :=
  ⟨rfl, fun _ => rfl⟩
